import Mathlib

/-!
Verification of the OSC-Query-JS repository (OSCNode.js / OSCQueryServer.js /
Main.js) against its natural-language specification.

The JavaScript code is shallowly embedded: the mutable `OSCNode` tree becomes a
purely functional inductive tree, JavaScript values and serialized JSON both
become the `JVal` type, and each tree / server / filter operation becomes a
Lean function translated line by line from the source.  JavaScript-specific
behaviour is modelled explicitly:

* `undefined` fields are `Option.none`;
* `JSON.stringify` drops object properties whose value is `undefined`, so a
  response object assembles only the present fields;
* JavaScript truthiness (`if (this._description)`, `a || b`) is modelled by
  dedicated helpers (`jsOrStr`, empty-string tests) where the source relies
  on it;
* `String.prototype.split`, `includes`, `replace` (first occurrence only) and
  `endsWith` get faithful counterparts.

`assembleFullPath` in the source walks parent pointers; every reachable tree
keys each child under its own name, so serialization here carries the path
prefix downward (the spec's design notes endorse this equivalent form).
-/

namespace OscQueryJs

/-- JSON-ish values: both the dynamic JavaScript values stored in the tree and
the serialized response bodies.  Objects are association lists in insertion
order, matching JavaScript object key order for the keys used here. -/
inductive JVal where
  | null
  | bool (b : Bool)
  | num (n : Int)
  | str (s : String)
  | arr (elems : List JVal)
  | obj (fields : List (String × JVal))

/-- The `elem !== null` test used by `allNull` in OSCNode.js. -/
def JVal.isNull : JVal → Bool
  | JVal.null => true
  | _ => false

/-- JavaScript property read `fields[key]` on an object literal:
first (only) entry with the key, `none` for `undefined`. -/
def lookupField : List (String × JVal) → String → Option JVal
  | [], _ => none
  | (k, v) :: rest, s => if k = s then some v else lookupField rest s

/-- Property read on a serialized value (always an object in the code). -/
def objLookup : JVal → String → Option JVal
  | JVal.obj fields, k => lookupField fields k
  | _, _ => none

/-- A property that `JSON.stringify` keeps only when the value is defined. -/
def optField (k : String) : Option JVal → List (String × JVal)
  | none => []
  | some v => [(k, v)]

/-- OSC argument types: a single type code or a nested list (OSCNode.js
`getTypeString` handles both). -/
inductive OSCType where
  | simple (code : String)
  | comp (elems : List OSCType)

mutual

/-- Models `getTypeString` from OSCNode.js. -/
def getTypeString : OSCType → String
  | OSCType.simple c => c
  | OSCType.comp l => "[" ++ getTypeStringList l ++ "]"

/-- Models `type.map(getTypeString).join("")` over a nested type list. -/
def getTypeStringList : List OSCType → String
  | [] => ""
  | t :: ts => getTypeString t ++ getTypeStringList ts

end

/-- A range constraint `{min, max, vals}` attached to an argument. -/
structure RangeSpec where
  min : Option JVal
  max : Option JVal
  vals : Option (List JVal)

/-- Models `serializeRange` from OSCNode.js on a single range object; `undefined`
sub-fields are dropped by `JSON.stringify`.  Key order MAX, MIN, VALS as in
the source object literal. -/
def serializeRange (r : RangeSpec) : JVal :=
  JVal.obj (optField "MAX" r.max ++ optField "MIN" r.min ++
    optField "VALS" (r.vals.map JVal.arr))

/-- One entry of an `OSCNode`'s `_args` array. -/
structure OSCArg where
  type : OSCType
  value : Option JVal
  range : Option RangeSpec
  clipmode : Option JVal

/-- The `OSCNode` tree: the five metadata slots (all `undefined`-able) and the
children map, keyed by child name in insertion order.  `name`/`parent` are
represented by the position in the tree (see the header comment). -/
inductive OSCNode where
  | mk (description : Option String) (access : Option Nat)
       (tags : Option (List String)) (critical : Option Bool)
       (args : Option (List OSCArg)) (children : List (String × OSCNode))

def OSCNode.description : OSCNode → Option String
  | OSCNode.mk d _ _ _ _ _ => d

def OSCNode.access : OSCNode → Option Nat
  | OSCNode.mk _ a _ _ _ _ => a

def OSCNode.tags : OSCNode → Option (List String)
  | OSCNode.mk _ _ t _ _ _ => t

def OSCNode.critical : OSCNode → Option Bool
  | OSCNode.mk _ _ _ c _ _ => c

def OSCNode.args : OSCNode → Option (List OSCArg)
  | OSCNode.mk _ _ _ _ g _ => g

def OSCNode.children : OSCNode → List (String × OSCNode)
  | OSCNode.mk _ _ _ _ _ ch => ch

def OSCNode.withChildren : OSCNode → List (String × OSCNode) → OSCNode
  | OSCNode.mk d a t c g _, ch => OSCNode.mk d a t c g ch

def OSCNode.withArgs : OSCNode → Option (List OSCArg) → OSCNode
  | OSCNode.mk d a t c _ ch, g => OSCNode.mk d a t c g ch

/-- Models `new OSCNode(name, parent)`: every slot `undefined`, no children. -/
def emptyNode : OSCNode := OSCNode.mk none none none none none []

/-- The `desc` object passed to `setOpts` / `addMethod`: absent keys are
`undefined`. -/
structure MethodParams where
  description : Option String
  access : Option Nat
  tags : Option (List String)
  critical : Option Bool
  arguments : Option (List OSCArg)

/-- Models `setOpts` from OSCNode.js: overwrite all five metadata slots (missing
spec fields become `undefined`), children untouched. -/
def OSCNode.setOpts : OSCNode → MethodParams → OSCNode
  | OSCNode.mk _ _ _ _ _ ch, p =>
    OSCNode.mk p.description p.access p.tags p.critical p.arguments ch

/-- The empty options object `{}` used by `removeMethod`. -/
def clearParams : MethodParams := MethodParams.mk none none none none none

/-- Models `isEmpty`: `!this._args && Object.keys(this._children).length == 0`. -/
def OSCNode.isEmpty (n : OSCNode) : Bool :=
  n.args.isNone && n.children.isEmpty

/-- Models `isContainer`: `!this._args && Object.keys(this._children).length > 0`. -/
def OSCNode.isContainer (n : OSCNode) : Bool :=
  n.args.isNone && !n.children.isEmpty

/-- Models `path in this._children` / `this._children[path]`. -/
def lookupChild : List (String × OSCNode) → String → Option OSCNode
  | [], _ => none
  | (k, c) :: rest, s => if k = s then some c else lookupChild rest s

/-- Assignment `this._children[s] = c2` on an existing key (JavaScript objects
hold each key once, so replacing the first occurrence is exact). -/
def replaceChild : List (String × OSCNode) → String → OSCNode → List (String × OSCNode)
  | [], _, _ => []
  | (k, c) :: rest, s, c2 =>
    if k = s then (k, c2) :: rest else (k, c) :: replaceChild rest s c2

/-- Models `delete this._children[s]` (`removeChild`). -/
def removeChildEntry : List (String × OSCNode) → String → List (String × OSCNode)
  | [], _ => []
  | (k, c) :: rest, s => if k = s then rest else (k, c) :: removeChildEntry rest s

/-- Fields contributed by `if (this._description) result.DESCRIPTION = ...`:
JavaScript truthiness drops the empty string as well as `undefined`. -/
def descriptionFields : Option String → List (String × JVal)
  | some d => if d = "" then [] else [("DESCRIPTION", JVal.str d)]
  | none => []

/-- Fields contributed by the ACCESS branch of `serialize`: explicit access,
or the container default `0` (`OSCQAccess.NO_VALUE`). -/
def accessFields (acc : Option Nat) (container : Bool) : List (String × JVal) :=
  match acc with
  | some a => [("ACCESS", JVal.num a)]
  | none => if container then [("ACCESS", JVal.num 0)] else []

/-- Models `if (this._tags) result.TAGS = this._tags` (an empty array is truthy). -/
def tagsFields : Option (List String) → List (String × JVal)
  | some ts => [("TAGS", JVal.arr (ts.map JVal.str))]
  | none => []

/-- Models `if (this._critical !== undefined) result.CRITICAL = this._critical`. -/
def criticalFields : Option Bool → List (String × JVal)
  | some b => [("CRITICAL", JVal.bool b)]
  | none => []

/-- The argument block of `serialize`: TYPE always (when `_args` is set),
RANGE / CLIPMODE / VALUE each behind its `allNull` / access guard. -/
def argFields (acc : Option Nat) : Option (List OSCArg) → List (String × JVal)
  | none => []
  | some args =>
    let types := args.foldl (fun s a => s ++ getTypeString a.type) ""
    let values := args.map (fun a => a.value.getD JVal.null)
    let ranges := args.map (fun a => a.range)
    let clips := args.map (fun a => a.clipmode.getD JVal.null)
    ("TYPE", JVal.str types) ::
      ((if ranges.all Option.isNone then [] else
          [("RANGE", JVal.arr (ranges.map (fun r =>
            match r with
            | some rr => serializeRange rr
            | none => JVal.null)))]) ++
        (if clips.all JVal.isNull then [] else [("CLIPMODE", JVal.arr clips)]) ++
        (match acc with
         | some a =>
           if !(values.all JVal.isNull) && (a == 1 || a == 3) then
             [("VALUE", JVal.arr values)]
           else []
         | none => []))

mutual

/-- Models `serialize` from OSCNode.js.  `pre` is the assembled full path of the node
(`""` at the root, as `assembleFullPath` yields); the emitted FULL_PATH is
`full_path || "/"`. -/
def serializeNode (pre : String) : OSCNode → JVal
  | OSCNode.mk d a t c g ch =>
    JVal.obj (("FULL_PATH", JVal.str (if pre = "" then "/" else pre)) ::
      (descriptionFields d ++
        accessFields a (g.isNone && !ch.isEmpty) ++
        tagsFields t ++
        criticalFields c ++
        (if ch.isEmpty then []
         else [("CONTENTS", JVal.obj (serializeContents pre ch))]) ++
        argFields a g))

/-- CONTENTS mapping: each child serializes itself; its assembled full path is
the parent's path plus `/name`. -/
def serializeContents (pre : String) : List (String × OSCNode) → List (String × JVal)
  | [] => []
  | (k, c) :: rest =>
    (k, serializeNode (pre ++ "/" ++ k) c) :: serializeContents pre rest

end

/-- Does `sep` occur at the head of the character list? -/
def charsStartsWith : List Char → List Char → Bool
  | [], _ => true
  | _ :: _, [] => false
  | a :: as, b :: bs => a == b && charsStartsWith as bs

/-- Substring occurrence test on character lists. -/
def charsContains (sep : List Char) : List Char → Bool
  | [] => sep.isEmpty
  | c :: rest => charsStartsWith sep (c :: rest) || charsContains sep rest

/-- Left-to-right, non-overlapping split on a non-empty separator, with a fuel
counter bounding the scan length (`fuel ≥ length` always suffices, since every
step consumes at least one character). -/
def charsSplitOnFuel (sep : List Char) : Nat → List Char → List Char → List (List Char)
  | 0, acc, _ => [acc.reverse]
  | Nat.succ fuel, acc, l =>
    match l with
    | [] => [acc.reverse]
    | c :: rest =>
      if charsStartsWith sep (c :: rest) then
        acc.reverse :: charsSplitOnFuel sep fuel [] ((c :: rest).drop sep.length)
      else
        charsSplitOnFuel sep fuel (c :: acc) rest

/-- JavaScript `s.split(sep)` on character lists (per-character for the empty
separator, as in JavaScript). -/
def charsSplitOn (sep l : List Char) : List (List Char) :=
  match sep with
  | [] => l.map (fun c => [c])
  | _ :: _ => charsSplitOnFuel sep l.length [] l

/-- JavaScript `s.split(sep)` (structurally recursive so that concrete inputs
evaluate definitionally). -/
def jsSplit (s sep : String) : List String :=
  (charsSplitOn sep.data s.data).map (fun cs => String.mk cs)

/-- JavaScript `s.startsWith(t)`. -/
def jsStartsWith (s t : String) : Bool :=
  charsStartsWith t.data s.data

/-- JavaScript `s.endsWith(t)`. -/
def jsEndsWith (s t : String) : Bool :=
  charsStartsWith t.data.reverse s.data.reverse

/-- JavaScript `s.slice(0, -1)`. -/
def jsDropLast (s : String) : String :=
  String.mk s.data.dropLast

/-- Models `path.split("/").filter(p => p !== "")`, used by the HTTP handler and by
every tree operation. -/
def jsSplitPath (path : String) : List String :=
  (jsSplit path "/").filter (fun s => s != "")

/-- The full path assembled for the node reached by descending `segs` from the
root: `assembleFullPath` concatenates `"/" + name` per step from the root. -/
def pathAccum (segs : List String) : String :=
  segs.foldl (fun acc s => acc ++ "/" ++ s) ""

/-- Models `_getNodeForPath` descent: follow existing children, `none` when a
component is missing. -/
def resolvePath : List String → OSCNode → Option OSCNode
  | [], n => some n
  | s :: rest, n =>
    match lookupChild n.children s with
    | none => none
    | some c => resolvePath rest c

/-- Models `addMethod` descent: `getOrCreateChild` per component (append a fresh node
when missing), then `setOpts(params)` on the terminal node. -/
def addMethodAux (p : MethodParams) : List String → OSCNode → OSCNode
  | [], n => n.setOpts p
  | s :: rest, n =>
    match lookupChild n.children s with
    | some c => n.withChildren (replaceChild n.children s (addMethodAux p rest c))
    | none => n.withChildren (n.children ++ [(s, addMethodAux p rest emptyNode)])

/-- Models `OSCQueryServer.addMethod(path, params)`. -/
def addMethod (root : OSCNode) (path : String) (p : MethodParams) : OSCNode :=
  addMethodAux p (jsSplitPath path) root

/-- Models `removeMethod` body after resolving the node: `setOpts({})` at the target,
then walk parent-ward deleting every node that is empty, stopping at the first
non-empty node; the root is never deleted.  Returns `none` when the path does
not resolve (no-op in the caller). -/
def removeMethodAux : List String → OSCNode → Option OSCNode
  | [], n => some (n.setOpts clearParams)
  | s :: rest, n =>
    match lookupChild n.children s with
    | none => none
    | some c =>
      match removeMethodAux rest c with
      | none => none
      | some c2 =>
        some (if c2.isEmpty then n.withChildren (removeChildEntry n.children s)
              else n.withChildren (replaceChild n.children s c2))

/-- Models `OSCQueryServer.removeMethod(path)`. -/
def removeMethod (root : OSCNode) (path : String) : OSCNode :=
  (removeMethodAux (jsSplitPath path) root).getD root

/-- Models `this._args[arg_index].value = v` (with `v = none` for `unsetValue`'s
`delete`). -/
def setArgValue : List OSCArg → Nat → Option JVal → List OSCArg
  | [], _, _ => []
  | a :: rest, 0, v => OSCArg.mk a.type v a.range a.clipmode :: rest
  | a :: rest, Nat.succ i, v => a :: setArgValue rest i v

/-- Models `OSCNode.setValue`: throws `"Argument index out of range"` when `_args` is
unset or the index is not below the argument count. -/
def OSCNode.setValue (n : OSCNode) (i : Nat) (v : JVal) : Except String OSCNode :=
  match n.args with
  | none => Except.error "Argument index out of range"
  | some l =>
    if i < l.length then Except.ok (n.withArgs (some (setArgValue l i (some v))))
    else Except.error "Argument index out of range"

/-- Models `OSCNode.unsetValue`: same guard; `delete this._args[i].value`. -/
def OSCNode.unsetValue (n : OSCNode) (i : Nat) : Except String OSCNode :=
  match n.args with
  | none => Except.error "Argument index out of range"
  | some l =>
    if i < l.length then Except.ok (n.withArgs (some (setArgValue l i none)))
    else Except.error "Argument index out of range"

/-- Apply an in-place node mutation at the node resolved by `segs`; when some
component is missing the server methods return without effect, and an error
raised by `f` propagates to the caller with the tree untouched. -/
def modifyAtPath (f : OSCNode → Except String OSCNode) :
    List String → OSCNode → Except String OSCNode
  | [], n => f n
  | s :: rest, n =>
    match lookupChild n.children s with
    | none => Except.ok n
    | some c =>
      match modifyAtPath f rest c with
      | Except.error e => Except.error e
      | Except.ok c2 => Except.ok (n.withChildren (replaceChild n.children s c2))

/-- Models `OSCQueryServer.setValue(path, arg_index, value)`. -/
def serverSetValue (root : OSCNode) (path : String) (i : Nat) (v : JVal) :
    Except String OSCNode :=
  modifyAtPath (fun n => n.setValue i v) (jsSplitPath path) root

/-- Models `OSCQueryServer.unsetValue(path, arg_index)`. -/
def serverUnsetValue (root : OSCNode) (path : String) (i : Nat) :
    Except String OSCNode :=
  modifyAtPath (fun n => n.unsetValue i) (jsSplitPath path) root

/-- The constructor options bag of `OSCQueryServer` (all keys optional). -/
structure ServerOpts where
  oscQueryHostName : Option String
  oscIp : Option String
  bindAddress : Option String
  oscPort : Option Nat
  httpPort : Option Nat
  oscTransport : Option String
  serviceName : Option String
  rootDescription : Option String

/-- Models `new OSCQueryServer({})`. -/
def defaultOpts : ServerOpts :=
  ServerOpts.mk none none none none none none none none

/-- JavaScript `a || b` on an optional string: `undefined` and `""` are both
falsy. -/
def jsOrStr (a : Option String) (b : String) : String :=
  match a with
  | some s => if s = "" then b else s
  | none => b

/-- JavaScript `a || b` on optional numbers: `undefined` and `0` are falsy. -/
def jsOrNat (a : Option Nat) (b : Option Nat) : Option Nat :=
  match a with
  | some n => if n = 0 then b else some n
  | none => b

/-- The `EXTENSIONS` constant of OSCQueryServer.js: all seven flags true. -/
def extensionsJson : JVal :=
  JVal.obj [("ACCESS", JVal.bool true), ("VALUE", JVal.bool true),
    ("RANGE", JVal.bool true), ("DESCRIPTION", JVal.bool true),
    ("TAGS", JVal.bool true), ("CRITICAL", JVal.bool true),
    ("CLIPMODE", JVal.bool true)]

/-- The HOST_INFO response object; NAME and OSC_PORT vanish from the JSON body
when their value is `undefined` (`JSON.stringify` drops them). -/
def hostInfo (opts : ServerOpts) : JVal :=
  JVal.obj
    ((match opts.oscQueryHostName with
      | some s => [("NAME", JVal.str s)]
      | none => []) ++
     [("EXTENSIONS", extensionsJson),
      ("OSC_IP", JVal.str (jsOrStr opts.oscIp (jsOrStr opts.bindAddress "0.0.0.0")))] ++
     (match jsOrNat opts.oscPort opts.httpPort with
      | some n => [("OSC_PORT", JVal.num n)]
      | none => []) ++
     [("OSC_TRANSPORT", JVal.str (jsOrStr opts.oscTransport "UDP"))])

/-- Models `VALID_ATTRIBUTES` from OSCQueryServer.js. -/
def validAttributes : List String :=
  ["FULL_PATH", "CONTENTS", "TYPE", "ACCESS", "RANGE", "DESCRIPTION",
   "TAGS", "CRITICAL", "CLIPMODE", "VALUE", "HOST_INFO"]

/-- An HTTP response: status code and JSON body (`none` for an empty body). -/
structure Response where
  status : Nat
  body : Option JVal

/-- The `(access == 0 || access == 2)` guard on the serialized ACCESS value,
entered only when ACCESS is defined (ACCESS, when present, is a number). -/
def accessIs02 : Option JVal → Bool
  | some (JVal.num m) => m == 0 || m == 2
  | _ => false

/-- Models `_handleGet` from OSCQueryServer.js: selector validation, the HOST_INFO
shortcut, node resolution (404), the VALUE/204 guard, and attribute projection
`{ [query]: serialized[query] }` whose `undefined` value is dropped by
`JSON.stringify`. -/
def handleGet (opts : ServerOpts) (root : OSCNode) (pathname : String)
    (query : Option String) : Response :=
  let segs := jsSplitPath pathname
  match query with
  | some q =>
    if !(validAttributes.contains q) then Response.mk 400 none
    else if q = "HOST_INFO" then Response.mk 200 (some (hostInfo opts))
    else
      match resolvePath segs root with
      | none => Response.mk 404 none
      | some n =>
        let serialized := serializeNode (pathAccum segs) n
        if accessIs02 (objLookup serialized "ACCESS") && q == "VALUE" then
          Response.mk 204 none
        else
          Response.mk 200 (some (JVal.obj
            (match objLookup serialized q with
             | some v => [(q, v)]
             | none => [])))
  | none =>
    match resolvePath segs root with
    | none => Response.mk 404 none
    | some n => Response.mk 200 (some (serializeNode (pathAccum segs) n))

/-- The root node built by the `OSCQueryServer` constructor:
`setOpts({description: rootDescription || "root node", access: NO_VALUE})`. -/
def initRoot (opts : ServerOpts) : OSCNode :=
  emptyNode.setOpts
    (MethodParams.mk (some (jsOrStr opts.rootDescription "root node"))
      (some 0) none none none)

/-- Models `s.includes(t)` from JavaScript (the empty needle always matches). -/
def jsIncludes (s t : String) : Bool :=
  charsContains t.data s.data

/-- Replace the first occurrence of (non-empty) `sep` on character lists. -/
def charsReplaceFirst (sep rep : List Char) : List Char → List Char
  | [] => []
  | c :: rest =>
    if charsStartsWith sep (c :: rest) then rep ++ (c :: rest).drop sep.length
    else c :: charsReplaceFirst sep rep rest

/-- Models `s.replace(pat, rep)` with a string pattern: JavaScript replaces only the
first occurrence (and inserts at the start when `pat` is empty). -/
def jsReplaceFirst (s pat rep : String) : String :=
  if pat = "" then rep ++ s
  else String.mk (charsReplaceFirst pat.data rep.data s.data)

/-- Models `pattern.split(tok)[i]` helper: part `i` of the split. -/
def splitPart (s tok : String) (i : Nat) : String :=
  ((jsSplit s tok).drop i).headD ""

/-- Models `pathMatches(address, pattern)` from Main.js: exact match, then the
negative-substring form `base(!?exclude...`, then the `*` prefix wildcard. -/
def pathMatches (address pat : String) : Bool :=
  if pat = address then true
  else
    let negHit :=
      if jsIncludes pat "(!?" then
        let basePat := splitPart pat "(!?" 0
        let excludePat := jsReplaceFirst (splitPart pat "(!?" 1) ")" ""
        jsStartsWith address basePat && !(jsIncludes address excludePat)
      else false
    if negHit then true
    else if jsEndsWith pat "*" then jsStartsWith address (jsDropLast pat)
    else false

/-- The subscription filter state of `VRChatOSCQuery`. -/
structure FilterState where
  subscribeToAll : Bool
  subscribedPaths : List String

/-- Constructor state: accept-all on, empty set. -/
def initialFilter : FilterState := FilterState.mk true []

/-- Models `Set.add` (insertion-ordered, deduplicating). -/
def setAdd (l : List String) (p : String) : List String :=
  if l.contains p then l else l ++ [p]

/-- Models `subscribe(path)` from Main.js. -/
def subscribe (st : FilterState) (p : String) : FilterState :=
  FilterState.mk false (setAdd st.subscribedPaths p)

/-- Models `unsubscribe(path)` from Main.js: delete, then re-enable accept-all when
the set became empty. -/
def unsubscribe (st : FilterState) (p : String) : FilterState :=
  let l := st.subscribedPaths.filter (fun q => q != p)
  if l.isEmpty then FilterState.mk true l
  else FilterState.mk st.subscribeToAll l

/-- Models `subscribeToAllPaths()` from Main.js. -/
def subscribeAllPaths (_st : FilterState) : FilterState :=
  FilterState.mk true []

/-- Models `shouldProcessMessage(address)` from Main.js. -/
def shouldProcessMessage (st : FilterState) (address : String) : Bool :=
  if st.subscribeToAll then true
  else st.subscribedPaths.any (fun p => pathMatches address p)

/-- The three public filter mutations. -/
inductive FilterOp where
  | sub (p : String)
  | unsub (p : String)
  | subAll

def applyOp (st : FilterState) : FilterOp → FilterState
  | FilterOp.sub p => subscribe st p
  | FilterOp.unsub p => unsubscribe st p
  | FilterOp.subAll => subscribeAllPaths st

/-- A finite operation sequence run from a freshly constructed filter. -/
def applyOps (ops : List FilterOp) : FilterState :=
  ops.foldl applyOp initialFilter

/-- The serialized ACCESS attribute of a node, as an access number: the set
access, or the container default 0, or absent. -/
def serAccess (n : OSCNode) : Option Nat :=
  match n.access with
  | some a => some a
  | none => if n.isContainer then some 0 else none

/-- Keys of a children map are pairwise distinct (true of every tree that
models a JavaScript object, whose keys are unique). -/
def keysFresh : List (String × OSCNode) → Bool
  | [] => true
  | (k, _) :: rest => !(rest.any (fun e => e.1 == k)) && keysFresh rest

mutual

/-- Well-formedness of a tree: unique child keys at every node. -/
def wfNode : OSCNode → Bool
  | OSCNode.mk _ _ _ _ _ ch => keysFresh ch && wfChildren ch

def wfChildren : List (String × OSCNode) → Bool
  | [] => true
  | (_, c) :: rest => wfNode c && wfChildren rest

end

/-- Modelled from the spec: the exclude string of a negative pattern is "the
part of p after the token, up to the next `)`" (§4.4); the code instead only
deletes the first `)`. -/
def specExclude (afterTok : String) : String :=
  (jsSplit afterTok ")").headD afterTok

/-- Modelled from the spec: the §4.4 pattern grammar as the claim states it
(exact, `*` prefix, negative substring truncated at the next `)`). -/
def specPatternMatches (address p : String) : Bool :=
  (p = address) ||
  (jsEndsWith p "*" && jsStartsWith address (jsDropLast p)) ||
  (jsIncludes p "(!?" && jsStartsWith address (splitPart p "(!?" 0) &&
    !(jsIncludes address (specExclude (splitPart p "(!?" 1))))

/-- Modelled from the spec: filter acceptance under the claim's grammar. -/
def specFilterAccepts (st : FilterState) (address : String) : Bool :=
  st.subscribeToAll || st.subscribedPaths.any (fun p => specPatternMatches address p)

/-- The amended pattern grammar: as the claim states it, except that the
exclude string is the part after `(!?` with only its first `)` removed
(matching `replace(')', '')` in the source). -/
def amendedPatternMatches (address p : String) : Bool :=
  (p = address) ||
  (jsEndsWith p "*" && jsStartsWith address (jsDropLast p)) ||
  (jsIncludes p "(!?" && jsStartsWith address (splitPart p "(!?" 0) &&
    !(jsIncludes address (jsReplaceFirst (splitPart p "(!?" 1) ")" "")))

end OscQueryJs

namespace OscQueryJs

/-! ### Association-list and tree-structure lemmas -/

theorem children_withChildren (n : OSCNode) (ch : List (String × OSCNode)) :
    (n.withChildren ch).children = ch := by
  cases n
  rfl

theorem withChildren_self (n : OSCNode) : n.withChildren n.children = n := by
  cases n
  rfl

theorem lookupField_append (l1 l2 : List (String × JVal)) (k : String) :
    lookupField (l1 ++ l2) k =
      match lookupField l1 k with
      | some v => some v
      | none => lookupField l2 k := by
  induction l1 with
  | nil => simp [lookupField]
  | cons e rest ih =>
    cases e with
    | mk k1 v1 =>
      by_cases h : k1 = k
      · simp [lookupField, h]
      · simp [lookupField, h, ih]

theorem lookupChild_replace_self {l : List (String × OSCNode)} {s : String}
    {c : OSCNode} (h : lookupChild l s = some c) : replaceChild l s c = l := by
  induction l with
  | nil => simp [lookupChild] at h
  | cons e rest ih =>
    cases e with
    | mk k v =>
      by_cases hk : k = s
      · subst hk
        simp [lookupChild] at h
        simp [replaceChild, h]
      · simp [lookupChild, hk] at h
        simp [replaceChild, hk, ih h]

theorem lookupChild_replace {l : List (String × OSCNode)} {s : String}
    {c : OSCNode} (h : lookupChild l s = some c) (x : OSCNode) :
    lookupChild (replaceChild l s x) s = some x := by
  induction l with
  | nil => simp [lookupChild] at h
  | cons e rest ih =>
    cases e with
    | mk k v =>
      by_cases hk : k = s
      · simp [replaceChild, hk, lookupChild]
      · simp [lookupChild, hk] at h
        simp [replaceChild, hk, lookupChild, ih h]

theorem lookupChild_append_missing {l : List (String × OSCNode)} {s : String}
    (h : lookupChild l s = none) (x : OSCNode) :
    lookupChild (l ++ [(s, x)]) s = some x := by
  induction l with
  | nil => simp [lookupChild]
  | cons e rest ih =>
    cases e with
    | mk k v =>
      by_cases hk : k = s
      · simp [lookupChild, hk] at h
      · simp [lookupChild, hk] at h
        simp [lookupChild, hk, ih h]

end OscQueryJs

namespace OscQueryJs

/-! ### Serialized-attribute lookup lemmas -/

theorem lookupField_singleton_other (key : String) (v : JVal) {k : String}
    (h : ¬ key = k) : lookupField [(key, v)] k = none := by
  simp [lookupField, h]

theorem lookupField_descFields (d : Option String) {k : String}
    (h : ¬ "DESCRIPTION" = k) : lookupField (descriptionFields d) k = none := by
  cases d with
  | none => rfl
  | some s =>
    by_cases hs : s = "" <;> simp [descriptionFields, hs, lookupField, h]

theorem lookupField_accessFields_other (a : Option Nat) (cont : Bool) {k : String}
    (h : ¬ "ACCESS" = k) : lookupField (accessFields a cont) k = none := by
  cases a with
  | some x => simp [accessFields, lookupField, h]
  | none => cases cont <;> simp [accessFields, lookupField, h]

theorem lookupField_accessFields_self (a : Option Nat) (cont : Bool) :
    lookupField (accessFields a cont) "ACCESS" =
      match a with
      | some x => some (JVal.num x)
      | none => if cont then some (JVal.num 0) else none := by
  cases a with
  | some x => simp [accessFields, lookupField]
  | none => cases cont <;> simp [accessFields, lookupField]

theorem lookupField_tagsFields (t : Option (List String)) {k : String}
    (h : ¬ "TAGS" = k) : lookupField (tagsFields t) k = none := by
  cases t <;> simp [tagsFields, lookupField, h]

theorem lookupField_critFields (c : Option Bool) {k : String}
    (h : ¬ "CRITICAL" = k) : lookupField (criticalFields c) k = none := by
  cases c <;> simp [criticalFields, lookupField, h]

theorem lookupField_ite_nil_singleton (b : Bool) (key : String) (v : JVal)
    {k : String} (h : ¬ key = k) :
    lookupField (if b then [] else [(key, v)]) k = none := by
  cases b <;> simp [lookupField, h]

theorem lookupField_ite_singleton_nil (b : Bool) (key : String) (v : JVal)
    {k : String} (h : ¬ key = k) :
    lookupField (if b then [(key, v)] else []) k = none := by
  cases b <;> simp [lookupField, h]

theorem lookupField_argFields_other (a : Option Nat) (g : Option (List OSCArg))
    {k : String} (h1 : ¬ "TYPE" = k) (h2 : ¬ "RANGE" = k)
    (h3 : ¬ "CLIPMODE" = k) (h4 : ¬ "VALUE" = k) :
    lookupField (argFields a g) k = none := by
  cases g with
  | none => rfl
  | some args =>
    simp only [argFields]
    rw [lookupField]
    simp only [h1, if_false]
    rw [lookupField_append, lookupField_append]
    rw [lookupField_ite_nil_singleton _ _ _ h2]
    rw [lookupField_ite_nil_singleton _ _ _ h3]
    have hv : lookupField
        (match a with
         | some x =>
           if !((args.map (fun y => y.value.getD JVal.null)).all JVal.isNull) &&
               (x == 1 || x == 3) then
             [("VALUE", JVal.arr (args.map (fun y => y.value.getD JVal.null)))]
           else []
         | none => []) k = none := by
      cases a with
      | none => rfl
      | some x => exact lookupField_ite_singleton_nil _ _ _ h4
    rw [hv]

end OscQueryJs

namespace OscQueryJs

theorem lookupField_pite_nil_singleton (P : Prop) [Decidable P] (key : String)
    (v : JVal) {k : String} (h : ¬ key = k) :
    lookupField (if P then [] else [(key, v)]) k = none := by
  split <;> simp [lookupField, h]

theorem lookupField_pite_singleton_nil (P : Prop) [Decidable P] (key : String)
    (v : JVal) {k : String} (h : ¬ key = k) :
    lookupField (if P then [(key, v)] else []) k = none := by
  split <;> simp [lookupField, h]

theorem lookupField_argFields_TYPE (a : Option Nat) (args : List OSCArg) :
    lookupField (argFields a (some args)) "TYPE" =
      some (JVal.str (args.foldl (fun s g => s ++ getTypeString g.type) "")) := by
  simp [argFields, lookupField]

theorem lookupField_argFields_RANGE (a : Option Nat) (args : List OSCArg) :
    lookupField (argFields a (some args)) "RANGE" =
      (if (args.map (fun g => g.range)).all Option.isNone then none
       else some (JVal.arr ((args.map (fun g => g.range)).map (fun r =>
         match r with
         | some rr => serializeRange rr
         | none => JVal.null)))) := by
  by_cases h1 : (args.map (fun g => g.range)).all Option.isNone <;>
    cases a <;>
      by_cases h2 : (args.map (fun g => g.clipmode.getD JVal.null)).all JVal.isNull <;>
        simp [argFields, lookupField, h1, h2, lookupField_append,
          lookupField_ite_singleton_nil, lookupField_pite_singleton_nil,
          lookupField_pite_nil_singleton]

theorem lookupField_argFields_CLIPMODE (a : Option Nat) (args : List OSCArg) :
    lookupField (argFields a (some args)) "CLIPMODE" =
      (if (args.map (fun g => g.clipmode.getD JVal.null)).all JVal.isNull then none
       else some (JVal.arr (args.map (fun g => g.clipmode.getD JVal.null)))) := by
  by_cases h1 : (args.map (fun g => g.range)).all Option.isNone <;>
    cases a <;>
      by_cases h2 : (args.map (fun g => g.clipmode.getD JVal.null)).all JVal.isNull <;>
        simp [argFields, lookupField, h1, h2, lookupField_append,
          lookupField_ite_singleton_nil, lookupField_pite_singleton_nil,
          lookupField_pite_nil_singleton]

theorem lookupField_argFields_VALUE (a : Option Nat) (args : List OSCArg) :
    lookupField (argFields a (some args)) "VALUE" =
      (match a with
       | some x =>
         if !((args.map (fun g => g.value.getD JVal.null)).all JVal.isNull) &&
             (x == 1 || x == 3) then
           some (JVal.arr (args.map (fun g => g.value.getD JVal.null)))
         else none
       | none => none) := by
  cases a with
  | none =>
    by_cases h1 : (args.map (fun g => g.range)).all Option.isNone <;>
      by_cases h2 : (args.map (fun g => g.clipmode.getD JVal.null)).all JVal.isNull <;>
        simp [argFields, lookupField, h1, h2, lookupField_append]
  | some x =>
    by_cases h1 : (args.map (fun g => g.range)).all Option.isNone <;>
      by_cases h2 : (args.map (fun g => g.clipmode.getD JVal.null)).all JVal.isNull <;>
        by_cases h3 : (!((args.map (fun g => g.value.getD JVal.null)).all JVal.isNull) &&
            (x == 1 || x == 3)) = true <;>
          simp [argFields, lookupField, h1, h2, h3, lookupField_append]

theorem objLookup_ser_fullPath (pre : String) (n : OSCNode) :
    objLookup (serializeNode pre n) "FULL_PATH" =
      some (JVal.str (if pre = "" then "/" else pre)) := by
  cases n with
  | mk d a t c g ch => simp [serializeNode, objLookup, lookupField]

theorem objLookup_ser_ACCESS (pre : String) (n : OSCNode) :
    objLookup (serializeNode pre n) "ACCESS" =
      (serAccess n).map (fun x => JVal.num x) := by
  cases n with
  | mk d a t c g ch =>
    cases a with
    | some x =>
      simp [serializeNode, objLookup, lookupField, lookupField_append,
        lookupField_descFields, lookupField_accessFields_self,
        lookupField_tagsFields, lookupField_critFields,
        lookupField_argFields_other, lookupField_ite_nil_singleton,
        serAccess, OSCNode.access]
    | none =>
      by_cases hc : (g.isNone && !(List.isEmpty ch)) = true <;>
        simp [serializeNode, objLookup, lookupField, lookupField_append,
          lookupField_descFields, lookupField_accessFields_self,
          lookupField_tagsFields, lookupField_critFields,
          lookupField_argFields_other, lookupField_ite_nil_singleton,
          serAccess, OSCNode.access, OSCNode.isContainer, OSCNode.args,
          OSCNode.children, hc]

end OscQueryJs

namespace OscQueryJs

theorem objLookup_ser_argKey (pre : String) (d : Option String) (a : Option Nat)
    (t : Option (List String)) (c : Option Bool) (g : Option (List OSCArg))
    (ch : List (String × OSCNode)) {k : String}
    (h1 : ¬ "FULL_PATH" = k) (h2 : ¬ "DESCRIPTION" = k) (h3 : ¬ "ACCESS" = k)
    (h4 : ¬ "TAGS" = k) (h5 : ¬ "CRITICAL" = k) (h6 : ¬ "CONTENTS" = k) :
    objLookup (serializeNode pre (OSCNode.mk d a t c g ch)) k =
      lookupField (argFields a g) k := by
  show lookupField _ k = _
  rw [lookupField]
  rw [if_neg h1]
  rw [lookupField_append, lookupField_append, lookupField_append,
    lookupField_append, lookupField_append]
  rw [lookupField_descFields d h2, lookupField_accessFields_other a _ h3,
    lookupField_tagsFields t h4, lookupField_critFields c h5,
    lookupField_ite_nil_singleton _ _ _ h6]

theorem objLookup_ser_VALUE (pre : String) (d : Option String) (a : Option Nat)
    (t : Option (List String)) (c : Option Bool) (args : List OSCArg)
    (ch : List (String × OSCNode)) :
    objLookup (serializeNode pre (OSCNode.mk d a t c (some args) ch)) "VALUE" =
      (match a with
       | some x =>
         if !((args.map (fun g => g.value.getD JVal.null)).all JVal.isNull) &&
             (x == 1 || x == 3) then
           some (JVal.arr (args.map (fun g => g.value.getD JVal.null)))
         else none
       | none => none) := by
  rw [objLookup_ser_argKey pre d a t c (some args) ch (by decide) (by decide)
    (by decide) (by decide) (by decide) (by decide)]
  exact lookupField_argFields_VALUE a args

theorem objLookup_ser_VALUE_noArgs (pre : String) (d : Option String)
    (a : Option Nat) (t : Option (List String)) (c : Option Bool)
    (ch : List (String × OSCNode)) :
    objLookup (serializeNode pre (OSCNode.mk d a t c none ch)) "VALUE" = none := by
  rw [objLookup_ser_argKey pre d a t c none ch (by decide) (by decide)
    (by decide) (by decide) (by decide) (by decide)]
  rfl

theorem objLookup_ser_RANGE (pre : String) (d : Option String) (a : Option Nat)
    (t : Option (List String)) (c : Option Bool) (args : List OSCArg)
    (ch : List (String × OSCNode)) :
    objLookup (serializeNode pre (OSCNode.mk d a t c (some args) ch)) "RANGE" =
      (if (args.map (fun g => g.range)).all Option.isNone then none
       else some (JVal.arr ((args.map (fun g => g.range)).map (fun r =>
         match r with
         | some rr => serializeRange rr
         | none => JVal.null)))) := by
  rw [objLookup_ser_argKey pre d a t c (some args) ch (by decide) (by decide)
    (by decide) (by decide) (by decide) (by decide)]
  exact lookupField_argFields_RANGE a args

theorem objLookup_ser_CLIPMODE (pre : String) (d : Option String) (a : Option Nat)
    (t : Option (List String)) (c : Option Bool) (args : List OSCArg)
    (ch : List (String × OSCNode)) :
    objLookup (serializeNode pre (OSCNode.mk d a t c (some args) ch)) "CLIPMODE" =
      (if (args.map (fun g => g.clipmode.getD JVal.null)).all JVal.isNull then none
       else some (JVal.arr (args.map (fun g => g.clipmode.getD JVal.null)))) := by
  rw [objLookup_ser_argKey pre d a t c (some args) ch (by decide) (by decide)
    (by decide) (by decide) (by decide) (by decide)]
  exact lookupField_argFields_CLIPMODE a args

theorem accessIs02_serAccess (pre : String) (n : OSCNode) :
    accessIs02 (objLookup (serializeNode pre n) "ACCESS") = true ↔
      (serAccess n = some 0 ∨ serAccess n = some 2) := by
  rw [objLookup_ser_ACCESS]
  cases h : serAccess n with
  | none => simp [accessIs02]
  | some x =>
    simp [accessIs02]
    omega

theorem handleGet_some_resolved (opts : ServerOpts) (root : OSCNode)
    (pathname q : String) (n : OSCNode)
    (hval : q ∈ validAttributes) (hq : ¬ q = "HOST_INFO")
    (hres : resolvePath (jsSplitPath pathname) root = some n) :
    handleGet opts root pathname (some q) =
      (if accessIs02 (objLookup (serializeNode (pathAccum (jsSplitPath pathname)) n)
            "ACCESS") && q == "VALUE" then
         Response.mk 204 none
       else
         Response.mk 200 (some (JVal.obj
           (match objLookup (serializeNode (pathAccum (jsSplitPath pathname)) n) q with
            | some v => [(q, v)]
            | none => [])))) := by
  simp [handleGet, hval, hq, hres]

end OscQueryJs

namespace OscQueryJs

/-! ### Tree-operation lemmas -/

theorem resolvePath_addMethodAux (p : MethodParams) :
    ∀ (segs : List String) (root n : OSCNode),
      resolvePath segs root = some n →
      resolvePath segs (addMethodAux p segs root) = some (n.setOpts p) := by
  intro segs
  induction segs with
  | nil =>
    intro root n h
    simp only [resolvePath] at h
    cases h
    rfl
  | cons s rest ih =>
    intro root n h
    cases hc : lookupChild root.children s with
    | none =>
      simp only [resolvePath, hc] at h
      exact Option.noConfusion h
    | some c =>
      simp only [resolvePath, hc] at h
      simp only [addMethodAux, hc, resolvePath, children_withChildren,
        lookupChild_replace hc]
      exact ih c n h

theorem resolvePath_addMethodAux_isSome (p : MethodParams) :
    ∀ (segs : List String) (root : OSCNode),
      ∃ m, resolvePath segs (addMethodAux p segs root) = some m := by
  intro segs
  induction segs with
  | nil => intro root; exact ⟨root.setOpts p, rfl⟩
  | cons s rest ih =>
    intro root
    cases hc : lookupChild root.children s with
    | some c =>
      obtain ⟨m, hm⟩ := ih c
      refine ⟨m, ?_⟩
      simp only [addMethodAux, hc, resolvePath, children_withChildren,
        lookupChild_replace hc]
      exact hm
    | none =>
      obtain ⟨m, hm⟩ := ih emptyNode
      refine ⟨m, ?_⟩
      simp only [addMethodAux, hc, resolvePath, children_withChildren,
        lookupChild_append_missing hc]
      exact hm

theorem modifyAtPath_unresolved (f : OSCNode → Except String OSCNode) :
    ∀ (segs : List String) (root : OSCNode),
      resolvePath segs root = none → modifyAtPath f segs root = Except.ok root := by
  intro segs
  induction segs with
  | nil =>
    intro root h
    simp only [resolvePath] at h
    exact Option.noConfusion h
  | cons s rest ih =>
    intro root h
    cases hc : lookupChild root.children s with
    | none => simp only [modifyAtPath, hc]
    | some c =>
      simp only [resolvePath, hc] at h
      simp only [modifyAtPath, hc, ih c h]
      rw [lookupChild_replace_self hc, withChildren_self]

theorem modifyAtPath_error (f : OSCNode → Except String OSCNode) :
    ∀ (segs : List String) (root n : OSCNode) (e : String),
      resolvePath segs root = some n → f n = Except.error e →
      modifyAtPath f segs root = Except.error e := by
  intro segs
  induction segs with
  | nil =>
    intro root n e h hf
    simp only [resolvePath] at h
    cases h
    simpa [modifyAtPath] using hf
  | cons s rest ih =>
    intro root n e h hf
    cases hc : lookupChild root.children s with
    | none =>
      simp only [resolvePath, hc] at h
      exact Option.noConfusion h
    | some c =>
      simp only [resolvePath, hc] at h
      simp only [modifyAtPath, hc, ih c n e h hf]

theorem removeMethodAux_unresolved :
    ∀ (segs : List String) (root : OSCNode),
      resolvePath segs root = none → removeMethodAux segs root = none := by
  intro segs
  induction segs with
  | nil =>
    intro root h
    simp only [resolvePath] at h
    exact Option.noConfusion h
  | cons s rest ih =>
    intro root h
    cases hc : lookupChild root.children s with
    | none => simp only [removeMethodAux, hc]
    | some c =>
      simp only [resolvePath, hc] at h
      simp only [removeMethodAux, hc, ih c h]

theorem removeMethodAux_isSome :
    ∀ (segs : List String) (root n : OSCNode),
      resolvePath segs root = some n →
      ∃ r2, removeMethodAux segs root = some r2 := by
  intro segs
  induction segs with
  | nil => intro root n _; exact ⟨root.setOpts clearParams, rfl⟩
  | cons s rest ih =>
    intro root n h
    cases hc : lookupChild root.children s with
    | none =>
      simp only [resolvePath, hc] at h
      exact Option.noConfusion h
    | some c =>
      simp only [resolvePath, hc] at h
      obtain ⟨c2, hc2⟩ := ih c n h
      refine ⟨if c2.isEmpty then root.withChildren (removeChildEntry root.children s)
              else root.withChildren (replaceChild root.children s c2), ?_⟩
      simp only [removeMethodAux, hc, hc2]

/-! ### Well-formedness lemmas for the cleanup proof -/

theorem lookupChild_of_not_any :
    ∀ {l : List (String × OSCNode)} {s : String},
      (l.any (fun e => e.1 == s)) = false → lookupChild l s = none := by
  intro l
  induction l with
  | nil => intro s _; rfl
  | cons e rest ih =>
    intro s h
    cases e with
    | mk k v =>
      simp only [List.any_cons, Bool.or_eq_false_iff] at h
      have hk : ¬ k = s := by
        intro hk
        rw [hk] at h
        simp at h
      simp only [lookupChild, if_neg hk]
      apply ih
      simp [h.2]

theorem keysFresh_remove :
    ∀ {l : List (String × OSCNode)} (s : String), keysFresh l = true →
      lookupChild (removeChildEntry l s) s = none := by
  intro l
  induction l with
  | nil => intro s _; rfl
  | cons e rest ih =>
    intro s h
    cases e with
    | mk k v =>
      simp only [keysFresh, Bool.and_eq_true, Bool.not_eq_true'] at h
      by_cases hk : k = s
      · subst hk
        simp only [removeChildEntry, if_pos rfl]
        exact lookupChild_of_not_any h.1
      · simp only [removeChildEntry, if_neg hk, lookupChild, if_neg hk]
        exact ih s h.2

theorem wfChildren_lookup :
    ∀ {l : List (String × OSCNode)} {s : String} {c : OSCNode},
      wfChildren l = true → lookupChild l s = some c → wfNode c = true := by
  intro l
  induction l with
  | nil => intro s c _ h; simp [lookupChild] at h
  | cons e rest ih =>
    intro s c hwf h
    cases e with
    | mk k v =>
      simp only [wfChildren, Bool.and_eq_true] at hwf
      by_cases hk : k = s
      · simp only [lookupChild, if_pos hk] at h
        cases h
        exact hwf.1
      · simp only [lookupChild, if_neg hk] at h
        exact ih hwf.2 h

theorem wfNode_parts {d : Option String} {a : Option Nat} {t : Option (List String)}
    {c : Option Bool} {g : Option (List OSCArg)} {ch : List (String × OSCNode)}
    (h : wfNode (OSCNode.mk d a t c g ch) = true) :
    keysFresh ch = true ∧ wfChildren ch = true := by
  simpa [wfNode, Bool.and_eq_true] using h

end OscQueryJs

namespace OscQueryJs

theorem removeMethodAux_no_empty :
    ∀ (segs : List String) (root root2 : OSCNode), wfNode root = true →
      removeMethodAux segs root = some root2 →
      ∀ (pre suf : List String) (m : OSCNode), pre ≠ [] → pre ++ suf = segs →
        resolvePath pre root2 = some m → m.isEmpty = false := by
  intro segs
  induction segs with
  | nil =>
    intro root root2 _ _ pre suf m hpre hps _
    cases pre with
    | nil => exact absurd rfl hpre
    | cons a b => simp at hps
  | cons s rest ih =>
    intro root root2 hwf hrm pre suf m hpre hps hres
    cases root with
    | mk d a t c g ch =>
      obtain ⟨hkf, hwfc⟩ := wfNode_parts hwf
      cases hc : lookupChild ch s with
      | none =>
        simp only [removeMethodAux, OSCNode.children, hc] at hrm
        exact Option.noConfusion hrm
      | some cNode =>
        cases hc2 : removeMethodAux rest cNode with
        | none =>
          simp only [removeMethodAux, OSCNode.children, hc, hc2] at hrm
          exact Option.noConfusion hrm
        | some c2 =>
          simp only [removeMethodAux, OSCNode.children, hc, hc2] at hrm
          have hr2 := Option.some.inj hrm
          cases pre with
          | nil => exact absurd rfl hpre
          | cons p1 pre2 =>
            simp only [List.cons_append, List.cons.injEq] at hps
            obtain ⟨hp1, hrest⟩ := hps
            subst hp1
            by_cases hemp : c2.isEmpty = true
            · rw [if_pos hemp] at hr2
              subst hr2
              simp only [resolvePath, OSCNode.withChildren, OSCNode.children,
                keysFresh_remove p1 hkf] at hres
              exact Option.noConfusion hres
            · rw [if_neg hemp] at hr2
              subst hr2
              simp only [resolvePath, OSCNode.withChildren, OSCNode.children,
                lookupChild_replace hc] at hres
              cases pre2 with
              | nil =>
                simp only [resolvePath, Option.some.injEq] at hres
                subst hres
                exact Bool.eq_false_iff.mpr hemp
              | cons q qrest =>
                have hwfcN : wfNode cNode = true := wfChildren_lookup hwfc hc
                exact ih cNode c2 hwfcN hc2 (q :: qrest) suf m (by simp) hrest hres

end OscQueryJs

namespace OscQueryJs

/-! ### Full-path assembly lemmas -/

theorem pathAccum_aux :
    ∀ (segs : List String) (acc : String), ∃ t : List Char,
      (List.foldl (fun a s => a ++ "/" ++ s) acc segs).data = acc.data ++ t := by
  intro segs
  induction segs with
  | nil => intro acc; exact ⟨[], by simp⟩
  | cons s rest ih =>
    intro acc
    obtain ⟨t, ht⟩ := ih (acc ++ "/" ++ s)
    refine ⟨'/' :: (s.data ++ t), ?_⟩
    show (List.foldl (fun a s => a ++ "/" ++ s) (acc ++ "/" ++ s) rest).data = _
    rw [ht]
    simp [String.data_append]

theorem pathAccum_ne_empty {segs : List String} (h : segs ≠ []) :
    ¬ pathAccum segs = "" := by
  cases segs with
  | nil => exact absurd rfl h
  | cons s rest =>
    intro heq
    obtain ⟨t, ht⟩ := pathAccum_aux rest ("" ++ "/" ++ s)
    have hd : (pathAccum (s :: rest)).data = ("" ++ "/" ++ s).data ++ t := ht
    rw [heq] at hd
    simp [String.data_append] at hd

/-! ### Filter lemmas -/

theorem pathMatches_eq_amended (address p : String) :
    pathMatches address p = amendedPatternMatches address p := by
  by_cases h1 : p = address
  · simp [pathMatches, amendedPatternMatches, h1]
  · cases hI : jsIncludes p "(!?" <;>
      cases hS : jsStartsWith address (splitPart p "(!?" 0) <;>
        cases hE : jsIncludes address (jsReplaceFirst (splitPart p "(!?" 1) ")" "") <;>
          cases hW : jsEndsWith p "*" <;>
            cases hP : jsStartsWith address (jsDropLast p) <;>
              simp [pathMatches, amendedPatternMatches, h1, hI, hS, hE, hW, hP]

theorem setAdd_ne_nil (l : List String) (p : String) : setAdd l p ≠ [] := by
  cases l with
  | nil => simp [setAdd]
  | cons x xs =>
    unfold setAdd
    split <;> simp

theorem filterInv (ops : List FilterOp) :
    (applyOps ops).subscribeToAll = true ↔ (applyOps ops).subscribedPaths = [] := by
  have main : ∀ (l : List FilterOp) (st : FilterState),
      (st.subscribeToAll = true ↔ st.subscribedPaths = []) →
      ((l.foldl applyOp st).subscribeToAll = true ↔
        (l.foldl applyOp st).subscribedPaths = []) := by
    intro l
    induction l with
    | nil => intro st h; exact h
    | cons op rest ih =>
      intro st h
      apply ih
      cases op with
      | sub p =>
        simp [applyOp, subscribe, setAdd_ne_nil]
      | unsub p =>
        simp only [applyOp, unsubscribe]
        by_cases he : (st.subscribedPaths.filter (fun q => q != p)).isEmpty = true
        · rw [if_pos he]
          simp only [true_iff]
          exact List.isEmpty_iff.mp he
        · rw [if_neg he]
          have hne : ¬ (st.subscribedPaths.filter (fun q => q != p)) = [] := by
            intro hx
            exact he (by simp [hx])
          simp only [hne, iff_false]
          intro hall
          have hnil : st.subscribedPaths = [] := h.mp hall
          exact he (by simp [hnil])
      | subAll =>
        simp [applyOp, subscribeAllPaths]
  exact main ops initialFilter (by simp [initialFilter])

end OscQueryJs

namespace OscQueryJs

/-! ### Claim theorems -/

/-- Claim C4 (counterexample): the claim's grammar truncates the exclude string
at the next `)`, but the code only deletes the first `)`.  For the subscribed
pattern `/a/(!?x)z` and address `/a/x` the code accepts (exclude `xz` does not
occur) while the claim's predicate rejects (exclude `x` occurs). -/
theorem claim_C4_counterexample :
    shouldProcessMessage (applyOp initialFilter (FilterOp.sub "/a/(!?x)z")) "/a/x"
      = true ∧
    specFilterAccepts (applyOp initialFilter (FilterOp.sub "/a/(!?x)z")) "/a/x"
      = false :=
  ⟨rfl, rfl⟩

/-- Claim C4 (amended): the filter accepts an address iff accept-all mode is on
or some subscribed pattern matches under the grammar with the exclude string
taken as the part after `(!?` with only its first `)` removed. -/
theorem claim_C4_filterGrammar (st : FilterState) (address : String) :
    shouldProcessMessage st address = true ↔
      (st.subscribeToAll = true ∨
        ∃ p, p ∈ st.subscribedPaths ∧ amendedPatternMatches address p = true) := by
  unfold shouldProcessMessage
  by_cases hall : st.subscribeToAll = true
  · simp [hall]
  · simp [hall, List.any_eq_true, pathMatches_eq_amended]

/-- Claim C7: `setValue`/`unsetValue` raise `IndexOutOfRange` (message
"Argument index out of range") when the resolved node's argument slot does not
exist, and silently return the unchanged tree when the path does not resolve. -/
theorem claim_C7_valueOps (root : OSCNode) (path : String) (i : Nat) (v : JVal) :
    (resolvePath (jsSplitPath path) root = none →
      serverSetValue root path i v = Except.ok root ∧
      serverUnsetValue root path i = Except.ok root) ∧
    (∀ n, resolvePath (jsSplitPath path) root = some n →
      (n.args = none ∨ ∃ l, n.args = some l ∧ l.length ≤ i) →
      serverSetValue root path i v = Except.error "Argument index out of range" ∧
      serverUnsetValue root path i = Except.error "Argument index out of range") := by
  constructor
  · intro h
    exact ⟨modifyAtPath_unresolved _ _ _ h, modifyAtPath_unresolved _ _ _ h⟩
  · intro n hres hbad
    have hset : n.setValue i v = Except.error "Argument index out of range" := by
      rcases hbad with hnone | ⟨l, hl, hlen⟩
      · simp [OSCNode.setValue, hnone]
      · simp [OSCNode.setValue, hl, Nat.not_lt.mpr hlen]
    have hunset : n.unsetValue i = Except.error "Argument index out of range" := by
      rcases hbad with hnone | ⟨l, hl, hlen⟩
      · simp [OSCNode.unsetValue, hnone]
      · simp [OSCNode.unsetValue, hl, Nat.not_lt.mpr hlen]
    exact ⟨modifyAtPath_error _ _ _ _ _ hres hset,
      modifyAtPath_error _ _ _ _ _ hres hunset⟩

/-- Witness for C7: a one-argument method rejects index 5, and a write to a
path that does not resolve returns the tree unchanged. -/
theorem claim_C7_witness :
    serverSetValue
      (addMethod (initRoot defaultOpts) "/a"
        (MethodParams.mk none (some 3) none none
          (some [OSCArg.mk (OSCType.simple "i") none none none])))
      "/a" 5 (JVal.num 1) = Except.error "Argument index out of range" ∧
    serverUnsetValue (initRoot defaultOpts) "/missing" 0 =
      Except.ok (initRoot defaultOpts) :=
  ⟨((claim_C7_valueOps
      (addMethod (initRoot defaultOpts) "/a"
        (MethodParams.mk none (some 3) none none
          (some [OSCArg.mk (OSCType.simple "i") none none none])))
      "/a" 5 (JVal.num 1)).2
      (OSCNode.mk none (some 3) none none
        (some [OSCArg.mk (OSCType.simple "i") none none none]) [])
      rfl (Or.inr ⟨[OSCArg.mk (OSCType.simple "i") none none none], rfl, by decide⟩)).1,
   ((claim_C7_valueOps (initRoot defaultOpts) "/missing" 0 (JVal.num 1)).1 rfl).2⟩

/-- Claim C9: after any finite sequence of subscribe / unsubscribe /
subscribe-all operations from a fresh filter, an empty subscribed set implies
accept-all is on; unsubscribe re-enables accept-all exactly when the set
becomes empty; the fresh filter starts in accept-all mode with an empty set. -/
theorem claim_C9_acceptAllInvariant (ops : List FilterOp) :
    ((applyOps ops).subscribedPaths = [] → (applyOps ops).subscribeToAll = true) ∧
    (∀ p, (applyOp (applyOps ops) (FilterOp.unsub p)).subscribeToAll = true ↔
      (applyOp (applyOps ops) (FilterOp.unsub p)).subscribedPaths = []) ∧
    initialFilter.subscribeToAll = true ∧ initialFilter.subscribedPaths = [] := by
  refine ⟨fun h => (filterInv ops).mpr h, fun p => ?_, rfl, rfl⟩
  have hstep : applyOp (applyOps ops) (FilterOp.unsub p) =
      applyOps (ops ++ [FilterOp.unsub p]) := by
    simp [applyOps, List.foldl_append]
  rw [hstep]
  exact filterInv (ops ++ [FilterOp.unsub p])

/-- Witness for C9: subscribing then unsubscribing the same pattern empties
the set, and the theorem yields accept-all re-enabled. -/
theorem claim_C9_witness :
    (applyOps [FilterOp.sub "/a", FilterOp.unsub "/a"]).subscribedPaths = [] ∧
    (applyOps [FilterOp.sub "/a", FilterOp.unsub "/a"]).subscribeToAll = true :=
  ⟨rfl, (claim_C9_acceptAllInvariant [FilterOp.sub "/a", FilterOp.unsub "/a"]).1 rfl⟩

/-- Claim C10: `addMethod` on an existing terminal node keeps the children map
and replaces the whole metadata record with the given spec (fields absent from
the spec become unset). -/
theorem claim_C10_overwrite (root : OSCNode) (path : String)
    (params : MethodParams) (n : OSCNode)
    (h : resolvePath (jsSplitPath path) root = some n) :
    resolvePath (jsSplitPath path) (addMethod root path params) =
      some (OSCNode.mk params.description params.access params.tags
        params.critical params.arguments n.children) := by
  have h2 := resolvePath_addMethodAux params (jsSplitPath path) root n h
  cases n with
  | mk d a t c g ch => exact h2

/-- Witness for C10: overwriting a method at `/a` with a sparser spec discards
the old description, access and arguments while keeping the (empty) children
map. -/
theorem claim_C10_witness :
    resolvePath (jsSplitPath "/a")
      (addMethod
        (addMethod (initRoot defaultOpts) "/a"
          (MethodParams.mk (some "old") (some 2) none none
            (some [OSCArg.mk (OSCType.simple "i") (some (JVal.num 9)) none none])))
        "/a" (MethodParams.mk none (some 3) none none none)) =
      some (OSCNode.mk none (some 3) none none none []) :=
  claim_C10_overwrite
    (addMethod (initRoot defaultOpts) "/a"
      (MethodParams.mk (some "old") (some 2) none none
        (some [OSCArg.mk (OSCType.simple "i") (some (JVal.num 9)) none none])))
    "/a" (MethodParams.mk none (some 3) none none none)
    (OSCNode.mk (some "old") (some 2) none none
      (some [OSCArg.mk (OSCType.simple "i") (some (JVal.num 9)) none none]) [])
    rfl

end OscQueryJs

namespace OscQueryJs

/-- Claim C5 (counterexample): after inserting and removing `/a`, the root —
which lies on the path from the root to `/a` — is itself an empty node
(`isEmpty` ignores description and access), so "no empty node remains on the
path from root to p" fails as stated. -/
theorem claim_C5_counterexample :
    removeMethod
      (addMethod (initRoot defaultOpts) "/a"
        (MethodParams.mk none (some 3) none none
          (some [OSCArg.mk (OSCType.simple "i") none none none])))
      "/a" = initRoot defaultOpts ∧
    (initRoot defaultOpts).isEmpty = true :=
  ⟨rfl, rfl⟩

/-- Claim C5 (amended): `removeMethod` is a no-op when the path does not
resolve; when it resolves, afterwards every node still reachable by a
non-empty prefix of the path is non-empty — i.e. no empty node other than
possibly the root remains on the path (stated for trees with unique child
keys, which is every tree modelling a JavaScript object). -/
theorem claim_C5_removeCleanup (root : OSCNode) (path : String)
    (hwf : wfNode root = true) :
    (resolvePath (jsSplitPath path) root = none → removeMethod root path = root) ∧
    (∀ n, resolvePath (jsSplitPath path) root = some n →
      ∀ (pre suf : List String) (m : OSCNode), pre ≠ [] →
        pre ++ suf = jsSplitPath path →
        resolvePath pre (removeMethod root path) = some m → m.isEmpty = false) := by
  constructor
  · intro h
    rw [removeMethod, removeMethodAux_unresolved _ _ h]
    rfl
  · intro n hres pre suf m hpre hps hm
    obtain ⟨r2, hr2⟩ := removeMethodAux_isSome (jsSplitPath path) root n hres
    rw [removeMethod, hr2, Option.getD_some] at hm
    exact removeMethodAux_no_empty (jsSplitPath path) root r2 hwf hr2 pre suf m
      hpre hps hm

/-- Witness for C5: removing `/a/b` under a method `/a` deletes `b`, and the
surviving node at prefix `a` is non-empty. -/
theorem claim_C5_witness :
    (OSCNode.mk none (some 3) none none
      (some [OSCArg.mk (OSCType.simple "i") none none none]) []).isEmpty = false :=
  (claim_C5_removeCleanup
    (addMethod
      (addMethod (initRoot defaultOpts) "/a"
        (MethodParams.mk none (some 3) none none
          (some [OSCArg.mk (OSCType.simple "i") none none none])))
      "/a/b"
      (MethodParams.mk none (some 2) none none
        (some [OSCArg.mk (OSCType.simple "s") none none none])))
    "/a/b" rfl).2
    (OSCNode.mk none (some 2) none none
      (some [OSCArg.mk (OSCType.simple "s") none none none]) [])
    rfl ["a"] ["b"]
    (OSCNode.mk none (some 3) none none
      (some [OSCArg.mk (OSCType.simple "i") none none none]) [])
    (by decide) rfl rfl

/-- For an option, `isSome` is the negation of `isNone`. -/
theorem isSome_eq_bnot_isNone {α : Type} (o : Option α) : o.isSome = !o.isNone := by
  cases o <;> rfl

/-- Some mapped entry fails the test iff not all mapped entries pass it. -/
theorem any_bnot_all_map {α β : Type} (args : List α) (f : α → β) (P : β → Bool) :
    (args.any (fun g => !(P (f g))) = true) ↔ ¬ ((args.map f).all P = true) := by
  constructor
  · intro h hall
    obtain ⟨x, hx, hxn⟩ := List.any_eq_true.mp h
    have h1 := List.all_eq_true.mp hall (f x) (List.mem_map.mpr ⟨x, hx, rfl⟩)
    rw [h1] at hxn
    exact absurd hxn (by decide)
  · intro h
    by_contra hany
    apply h
    rw [List.all_eq_true]
    intro y hy
    obtain ⟨x, hx, hfx⟩ := List.mem_map.mp hy
    cases hh : P y
    · refine absurd (List.any_eq_true.mpr ⟨x, hx, ?_⟩) hany
      rw [hfx, hh]
      rfl
    · rfl

/-- The VALUE lookup with a set access, match-free form. -/
theorem objLookup_ser_VALUE_someAcc (pre : String) (d : Option String) (x : Nat)
    (t : Option (List String)) (c : Option Bool) (args : List OSCArg)
    (ch : List (String × OSCNode)) :
    objLookup (serializeNode pre (OSCNode.mk d (some x) t c (some args) ch))
        "VALUE" =
      (if !((args.map (fun g => g.value.getD JVal.null)).all JVal.isNull) &&
          (x == 1 || x == 3) then
        some (JVal.arr (args.map (fun g => g.value.getD JVal.null)))
      else none) := by
  rw [objLookup_ser_VALUE]

/-- The VALUE lookup with unset access: never emitted. -/
theorem objLookup_ser_VALUE_noneAcc (pre : String) (d : Option String)
    (t : Option (List String)) (c : Option Bool) (args : List OSCArg)
    (ch : List (String × OSCNode)) :
    objLookup (serializeNode pre (OSCNode.mk d none t c (some args) ch))
      "VALUE" = none := by
  rw [objLookup_ser_VALUE]

/-- Claim C6: in a full-node serialization of a node with arguments, RANGE is
present iff some argument has a non-null range, CLIPMODE iff some argument has
a non-null clipmode, and VALUE iff some argument value is non-null and the
node's access is READONLY (1) or READWRITE (3); with every per-argument entry
null the key is absent. -/
theorem claim_C6_omission (pre : String) (n : OSCNode) (args : List OSCArg)
    (h : n.args = some args) :
    ((objLookup (serializeNode pre n) "RANGE").isSome = true ↔
      args.any (fun g => g.range.isSome) = true) ∧
    ((objLookup (serializeNode pre n) "CLIPMODE").isSome = true ↔
      args.any (fun g => !(g.clipmode.getD JVal.null).isNull) = true) ∧
    ((objLookup (serializeNode pre n) "VALUE").isSome = true ↔
      (args.any (fun g => !(g.value.getD JVal.null).isNull) = true ∧
        (n.access = some 1 ∨ n.access = some 3))) := by
  cases n with
  | mk d a t c g ch =>
    simp only [OSCNode.args] at h
    subst h
    refine ⟨?_, ?_, ?_⟩
    · rw [objLookup_ser_RANGE]
      have hbr : (args.any (fun g => g.range.isSome) = true) ↔
          ¬ ((args.map (fun g => g.range)).all Option.isNone = true) := by
        rw [← any_bnot_all_map args (fun g => g.range) Option.isNone]
        constructor <;>
          · intro hx
            obtain ⟨x, hmem, hxp⟩ := List.any_eq_true.mp hx
            refine List.any_eq_true.mpr ⟨x, hmem, ?_⟩
            rw [isSome_eq_bnot_isNone] at *
            exact hxp
      by_cases hall : (args.map (fun g => g.range)).all Option.isNone = true
      · rw [if_pos hall]
        constructor
        · intro hx
          exact absurd hx (by decide)
        · intro hx
          exact absurd hall (hbr.mp hx)
      · rw [if_neg hall]
        constructor
        · intro _
          exact hbr.mpr hall
        · intro _
          rfl
    · rw [objLookup_ser_CLIPMODE]
      by_cases hall : (args.map (fun g => g.clipmode.getD JVal.null)).all
          JVal.isNull = true
      · rw [if_pos hall]
        constructor
        · intro hx
          exact absurd hx (by decide)
        · intro hx
          exact absurd hall ((any_bnot_all_map args
            (fun g => g.clipmode.getD JVal.null) JVal.isNull).mp hx)
      · rw [if_neg hall]
        constructor
        · intro _
          exact (any_bnot_all_map args (fun g => g.clipmode.getD JVal.null)
            JVal.isNull).mpr hall
        · intro _
          rfl
    · cases a with
      | none =>
        rw [objLookup_ser_VALUE_noneAcc]
        simp [OSCNode.access]
      | some x =>
        rw [objLookup_ser_VALUE_someAcc]
        by_cases hcond : (!((args.map (fun g => g.value.getD JVal.null)).all
            JVal.isNull) && (x == 1 || x == 3)) = true
        · rw [if_pos hcond]
          rw [Bool.and_eq_true] at hcond
          obtain ⟨hnall, hxor⟩ := hcond
          constructor
          · intro _
            constructor
            · refine (any_bnot_all_map args (fun g => g.value.getD JVal.null)
                JVal.isNull).mpr ?_
              intro hall
              rw [hall] at hnall
              exact absurd hnall (by decide)
            · simp only [OSCNode.access, Option.some.injEq]
              rw [Bool.or_eq_true] at hxor
              rcases hxor with h1 | h3
              · exact Or.inl (by exact beq_iff_eq.mp h1)
              · exact Or.inr (by exact beq_iff_eq.mp h3)
          · intro _
            rfl
        · rw [if_neg hcond]
          constructor
          · intro hx
            exact absurd hx (by decide)
          · rintro ⟨hany, hacc⟩
            refine absurd ?_ hcond
            rw [Bool.and_eq_true]
            constructor
            · have hnall := (any_bnot_all_map args
                (fun g => g.value.getD JVal.null) JVal.isNull).mp hany
              cases hall : (args.map (fun g => g.value.getD JVal.null)).all
                  JVal.isNull
              · rfl
              · exact absurd hall hnall
            · simp only [OSCNode.access, Option.some.injEq] at hacc
              rw [Bool.or_eq_true]
              rcases hacc with h1 | h3
              · exact Or.inl (by simp [h1])
              · exact Or.inr (by simp [h3])

/-- Witness for C6: a two-argument READONLY method with one range, one
clipmode and one value set emits both RANGE and VALUE. -/
theorem claim_C6_witness :
    ((objLookup (serializeNode "/w" (OSCNode.mk none (some 1) none none
      (some [OSCArg.mk (OSCType.simple "f") (some (JVal.num 5))
          (some (RangeSpec.mk (some (JVal.num 0)) (some (JVal.num 1)) none))
          (some (JVal.str "both")),
        OSCArg.mk (OSCType.simple "i") none none none]) [])) "RANGE").isSome = true) ∧
    ((objLookup (serializeNode "/w" (OSCNode.mk none (some 1) none none
      (some [OSCArg.mk (OSCType.simple "f") (some (JVal.num 5))
          (some (RangeSpec.mk (some (JVal.num 0)) (some (JVal.num 1)) none))
          (some (JVal.str "both")),
        OSCArg.mk (OSCType.simple "i") none none none]) [])) "VALUE").isSome = true) :=
  ⟨(claim_C6_omission "/w" (OSCNode.mk none (some 1) none none
      (some [OSCArg.mk (OSCType.simple "f") (some (JVal.num 5))
          (some (RangeSpec.mk (some (JVal.num 0)) (some (JVal.num 1)) none))
          (some (JVal.str "both")),
        OSCArg.mk (OSCType.simple "i") none none none]) []) [OSCArg.mk (OSCType.simple "f") (some (JVal.num 5))
        (some (RangeSpec.mk (some (JVal.num 0)) (some (JVal.num 1)) none))
        (some (JVal.str "both")),
      OSCArg.mk (OSCType.simple "i") none none none] rfl).1.mpr (by decide),
   (claim_C6_omission "/w" (OSCNode.mk none (some 1) none none
      (some [OSCArg.mk (OSCType.simple "f") (some (JVal.num 5))
          (some (RangeSpec.mk (some (JVal.num 0)) (some (JVal.num 1)) none))
          (some (JVal.str "both")),
        OSCArg.mk (OSCType.simple "i") none none none]) []) [OSCArg.mk (OSCType.simple "f") (some (JVal.num 5))
        (some (RangeSpec.mk (some (JVal.num 0)) (some (JVal.num 1)) none))
        (some (JVal.str "both")),
      OSCArg.mk (OSCType.simple "i") none none none] rfl).2.2.mpr ⟨by decide, Or.inl rfl⟩⟩

end OscQueryJs

namespace OscQueryJs

/-- Claim C3 (counterexample): for the path string `/a/` (trailing slash) the
GET succeeds but FULL_PATH is the canonical `/a`, not the inserted string
`/a/`, so `FULL_PATH = p` fails for every non-canonical path string. -/
theorem claim_C3_counterexample :
    (handleGet defaultOpts
      (addMethod (initRoot defaultOpts) "/a/"
        (MethodParams.mk none (some 3) none none none)) "/a/" none).status
      = 200 ∧
    objLookup ((handleGet defaultOpts
      (addMethod (initRoot defaultOpts) "/a/"
        (MethodParams.mk none (some 3) none none none)) "/a/" none).body.getD
        JVal.null) "FULL_PATH" = some (JVal.str "/a") ∧
    ("/a" : String) ≠ "/a/" :=
  ⟨rfl, rfl, by decide⟩

/-- Claim C3 (amended): after `addMethod(p, spec)`, `GET p` returns 200 and a
body whose FULL_PATH equals the canonical form of `p` — `/` followed by the
non-empty segments of `p` joined by `/` (`/` itself for the root); this equals
`p` exactly when `p` is already canonical. -/
theorem claim_C3_fullPath (opts : ServerOpts) (root : OSCNode) (p : String)
    (params : MethodParams) :
    (handleGet opts (addMethod root p params) p none).status = 200 ∧
    ∃ body, (handleGet opts (addMethod root p params) p none).body = some body ∧
      objLookup body "FULL_PATH" =
        some (JVal.str (if jsSplitPath p = [] then "/"
          else pathAccum (jsSplitPath p))) := by
  obtain ⟨m, hm⟩ := resolvePath_addMethodAux_isSome params (jsSplitPath p) root
  have hh : handleGet opts (addMethod root p params) p none =
      Response.mk 200 (some (serializeNode (pathAccum (jsSplitPath p)) m)) := by
    simp [handleGet, addMethod, hm]
  rw [hh]
  refine ⟨rfl, _, rfl, ?_⟩
  rw [objLookup_ser_fullPath]
  by_cases hseg : jsSplitPath p = []
  · simp [hseg, pathAccum]
  · have hne := pathAccum_ne_empty hseg
    simp [hseg, hne]

/-- Claim C1 (counterexample): a method at `/a` with access READWRITE (3) and
one unset argument slot: the claim's otherwise-branch demands a 200 body with
`VALUE: [null]`, but the serializer omits VALUE when all values are null, so
the 200 body is the empty object with no VALUE key. -/
theorem claim_C1_counterexample :
    (handleGet defaultOpts
      (addMethod (initRoot defaultOpts) "/a"
        (MethodParams.mk none (some 3) none none
          (some [OSCArg.mk (OSCType.simple "i") none none none])))
      "/a" (some "VALUE")).status = 200 ∧
    objLookup ((handleGet defaultOpts
      (addMethod (initRoot defaultOpts) "/a"
        (MethodParams.mk none (some 3) none none
          (some [OSCArg.mk (OSCType.simple "i") none none none])))
      "/a" (some "VALUE")).body.getD JVal.null) "VALUE" = none :=
  ⟨rfl, rfl⟩

/-- Claim C1 (amended): for a resolvable node, `GET ?VALUE` answers 204 with
an empty body iff the serialized access is 0 or 2; otherwise it answers 200,
and the body carries the VALUE list (stored values, null at unset slots)
exactly when the node has arguments, its access is set to 1 or 3, and at
least one slot is non-null — otherwise the 200 body is the empty object. -/
theorem claim_C1_valueSelector (opts : ServerOpts) (root : OSCNode)
    (path : String) (n : OSCNode)
    (hres : resolvePath (jsSplitPath path) root = some n) :
    (((handleGet opts root path (some "VALUE")).status = 204 ∧
      (handleGet opts root path (some "VALUE")).body = none) ↔
      (serAccess n = some 0 ∨ serAccess n = some 2)) ∧
    (¬ (serAccess n = some 0 ∨ serAccess n = some 2) →
      (handleGet opts root path (some "VALUE")).status = 200 ∧
      (handleGet opts root path (some "VALUE")).body = some (JVal.obj
        (match n.args, n.access with
         | some args, some x =>
           if !((args.map (fun g => g.value.getD JVal.null)).all JVal.isNull) &&
               (x == 1 || x == 3) then
             [("VALUE", JVal.arr (args.map (fun g => g.value.getD JVal.null)))]
           else []
         | _, _ => []))) := by
  have hh := handleGet_some_resolved opts root path "VALUE" n (by decide)
    (by decide) hres
  have hbe : (("VALUE" : String) == "VALUE") = true := rfl
  rw [hbe, Bool.and_true] at hh
  by_cases hacc : accessIs02 (objLookup
      (serializeNode (pathAccum (jsSplitPath path)) n) "ACCESS") = true
  · rw [hh, if_pos hacc]
    constructor
    · constructor
      · intro _
        exact (accessIs02_serAccess _ n).mp hacc
      · intro _
        exact ⟨rfl, rfl⟩
    · intro hneg
      exact absurd ((accessIs02_serAccess _ n).mp hacc) hneg
  · rw [hh, if_neg hacc]
    constructor
    · constructor
      · rintro ⟨h204, _⟩
        simp at h204
      · intro hser
        exact absurd ((accessIs02_serAccess _ n).mpr hser) hacc
    · intro _
      refine ⟨rfl, ?_⟩
      cases n with
      | mk d a t c g ch =>
        cases g with
        | none =>
          rw [objLookup_ser_VALUE_noArgs]
          rfl
        | some args =>
          cases a with
          | none =>
            rw [objLookup_ser_VALUE_noneAcc]
            rfl
          | some x =>
            rw [objLookup_ser_VALUE_someAcc]
            by_cases hcond : (!((args.map (fun g => g.value.getD JVal.null)).all
                JVal.isNull) && (x == 1 || x == 3)) = true
            · rw [if_pos hcond]
              simp only [OSCNode.args, OSCNode.access]
              rw [if_pos hcond]
            · rw [if_neg hcond]
              simp only [OSCNode.args, OSCNode.access]
              rw [if_neg hcond]

/-- Witness for C1: a WRITEONLY method with a stored value answers 204 with an
empty body to `GET ?VALUE`. -/
theorem claim_C1_witness :
    (handleGet defaultOpts
      (addMethod (initRoot defaultOpts) "/w"
        (MethodParams.mk none (some 2) none none
          (some [OSCArg.mk (OSCType.simple "i") (some (JVal.num 7)) none none])))
      "/w" (some "VALUE")).status = 204 :=
  ((claim_C1_valueSelector defaultOpts
    (addMethod (initRoot defaultOpts) "/w"
      (MethodParams.mk none (some 2) none none
        (some [OSCArg.mk (OSCType.simple "i") (some (JVal.num 7)) none none])))
    "/w"
    (OSCNode.mk none (some 2) none none
      (some [OSCArg.mk (OSCType.simple "i") (some (JVal.num 7)) none none]) [])
    rfl).1.mpr (Or.inr rfl)).1

end OscQueryJs

namespace OscQueryJs

/-- Claim C2 (counterexample): `GET /?CRITICAL` on a fresh server (the root
has no CRITICAL attribute) answers 200 with body `{}` — the selected key is
absent, not present with a null value, because `JSON.stringify` drops the
`undefined` projection. -/
theorem claim_C2_counterexample :
    handleGet defaultOpts (initRoot defaultOpts) "/" (some "CRITICAL") =
      Response.mk 200 (some (JVal.obj [])) ∧
    objLookup (JVal.obj []) "CRITICAL" = none :=
  ⟨rfl, rfl⟩

/-- Claim C2 (amended): for a valid non-HOST_INFO selector resolving to a node
whose serialization does not emit the selected attribute (and outside the
VALUE/204 case), the response is 200 with the empty JSON object as body: the
selected key is omitted, because its `undefined` value is dropped by
`JSON.stringify`. -/
theorem claim_C2_missingAttribute (opts : ServerOpts) (root : OSCNode)
    (path q : String) (n : OSCNode)
    (hval : q ∈ validAttributes) (hq : ¬ q = "HOST_INFO")
    (hres : resolvePath (jsSplitPath path) root = some n)
    (hmiss : objLookup (serializeNode (pathAccum (jsSplitPath path)) n) q = none)
    (hnot : q = "VALUE" → ¬ (serAccess n = some 0 ∨ serAccess n = some 2)) :
    handleGet opts root path (some q) = Response.mk 200 (some (JVal.obj [])) := by
  rw [handleGet_some_resolved opts root path q n hval hq hres]
  have hguard : (accessIs02 (objLookup
      (serializeNode (pathAccum (jsSplitPath path)) n) "ACCESS") &&
      (q == "VALUE")) = false := by
    by_cases hv : q = "VALUE"
    · have hna := hnot hv
      have hfa : accessIs02 (objLookup
          (serializeNode (pathAccum (jsSplitPath path)) n) "ACCESS") = false :=
        Bool.eq_false_iff.mpr (fun hx => hna ((accessIs02_serAccess _ n).mp hx))
      simp [hfa]
    · simp [hv]
  rw [if_neg (by simp [hguard])]
  rw [hmiss]

/-- Witness for C2: `GET /?TAGS` on a fresh server (no TAGS on the root)
returns 200 with the empty object body. -/
theorem claim_C2_witness :
    handleGet defaultOpts (initRoot defaultOpts) "/" (some "TAGS") =
      Response.mk 200 (some (JVal.obj [])) :=
  claim_C2_missingAttribute defaultOpts (initRoot defaultOpts) "/" "TAGS"
    (initRoot defaultOpts) (by decide) (by decide) rfl rfl
    (fun h => absurd h (by decide))

/-- Claim C8 (counterexample): with no configured host name and no ports, the
HOST_INFO body omits NAME and OSC_PORT (their `undefined` values are dropped
by `JSON.stringify`), so "a JSON object containing NAME, ..., OSC_PORT" fails
as stated; the status is still 200 on an unresolvable path. -/
theorem claim_C8_counterexample :
    (handleGet defaultOpts (initRoot defaultOpts) "/does/not/exist"
      (some "HOST_INFO")).status = 200 ∧
    objLookup ((handleGet defaultOpts (initRoot defaultOpts) "/does/not/exist"
      (some "HOST_INFO")).body.getD JVal.null) "NAME" = none ∧
    objLookup ((handleGet defaultOpts (initRoot defaultOpts) "/does/not/exist"
      (some "HOST_INFO")).body.getD JVal.null) "OSC_PORT" = none :=
  ⟨rfl, rfl, rfl⟩

/-- Claim C8 (amended): a GET with selector HOST_INFO answers 200 with the
HOST_INFO object for every request path (it takes precedence over node
resolution, so no 404); the body always carries EXTENSIONS with all seven
flags true, OSC_IP (default "0.0.0.0") and OSC_TRANSPORT (default "UDP"),
while NAME appears iff `oscQueryHostName` is configured and OSC_PORT iff
`oscPort` or `httpPort` is configured (JavaScript-truthy). -/
theorem claim_C8_hostInfo (opts : ServerOpts) (root : OSCNode)
    (pathname : String) :
    handleGet opts root pathname (some "HOST_INFO") =
      Response.mk 200 (some (hostInfo opts)) ∧
    objLookup (hostInfo opts) "EXTENSIONS" = some extensionsJson ∧
    objLookup (hostInfo opts) "OSC_IP" =
      some (JVal.str (jsOrStr opts.oscIp (jsOrStr opts.bindAddress "0.0.0.0"))) ∧
    objLookup (hostInfo opts) "OSC_TRANSPORT" =
      some (JVal.str (jsOrStr opts.oscTransport "UDP")) ∧
    objLookup (hostInfo opts) "NAME" = opts.oscQueryHostName.map JVal.str ∧
    objLookup (hostInfo opts) "OSC_PORT" =
      (jsOrNat opts.oscPort opts.httpPort).map (fun x => JVal.num x) := by
  obtain ⟨hn, ip, ba, op, hp, tr, sn, rd⟩ := opts
  refine ⟨rfl, ?_, ?_, ?_, ?_, ?_⟩ <;>
    cases hn <;> cases hjs : jsOrNat op hp <;>
      simp [hostInfo, objLookup, lookupField, lookupField_append, hjs]

end OscQueryJs
